import Mathlib

/-!
# Verification of segmentio/netx: descriptor exchange and tunnel relays

Shallow embedding of the netx package's two facilities:

* `fd.go` — passing file descriptors over a unix domain socket
  (`SendUnixConn`, `SendUnixFile`, `RecvUnixConn`, `RecvUnixFile`);
* `tunnel.go` — the `Tunnel` proxy handler and its two relay policies
  (`tunnelRaw`, `tunnelLine`).

The OS-facing collaborators (`ReadMsgUnix`, `ParseSocketControlMessage`,
`ParseUnixRights`, `WriteMsgUnix`, the dialer, `readLine`, `Copy`) are
abstracted as oracle inputs: each embedded function is parameterised by the
results those calls would return, and produces, besides its Go return values,
a trace of the externally visible resource actions (descriptor closes,
connection closes, handler invocations) that the Go code performs.
-/

namespace Netx

/-- Go `error` values as compared by `==` / `errors.New` identity.  Wrapping an
error yields a *different* value (`wrapped e ≠ e`), mirroring `fmt.Errorf`
with `%w`: a wrapped `io.EOF` is not `io.EOF` under Go's `==`. -/
inductive GoError where
  /-- `io.EOF` -/
  | eof
  /-- `context.Canceled` -/
  | canceled
  /-- `context.DeadlineExceeded` -/
  | deadlineExceeded
  /-- the distinct error signalled by the bounded line reader when a line
  exceeds the maximum length -/
  | lineTooLong
  /-- any error derived from another by wrapping; distinct from the original -/
  | wrapped (e : GoError)
  /-- `os.NewSyscallError("ParseSocketControlMessage", e)` -/
  | parseSCMFailed (e : GoError)
  /-- `os.NewSyscallError("ParseUnixRights", e)` -/
  | parseRightsFailed (e : GoError)
  /-- `fmt.Errorf("invalid number of socket control messages, expected 1 but
  found %d", n)` — carries the actual block count `n` -/
  | invalidControlMessageCount (n : Nat)
  /-- `fmt.Errorf("too many file descriptors found in a single control
  message, %d were closed", n)` — carries the actual descriptor count `n` -/
  | tooManyFileDescriptors (n : Nat)
  /-- any other error value, indexed to keep distinct values distinct -/
  | other (code : Nat)
  deriving DecidableEq

/-- One ancillary control-message block as returned by
`syscall.ParseSocketControlMessage`: the descriptors it embeds, and the error
(if any) that `syscall.ParseUnixRights` would report for it. -/
structure ControlMessage where
  fds : List Nat
  rightsErr : Option GoError
  deriving DecidableEq

instance {ε α : Type} [DecidableEq ε] [DecidableEq α] : DecidableEq (Except ε α)
  | Except.error a, Except.error b =>
    if h : a = b then isTrue (by rw [h]) else isFalse (by intro he; cases he; exact h rfl)
  | Except.error _, Except.ok _ => isFalse (by intro h; cases h)
  | Except.ok _, Except.error _ => isFalse (by intro h; cases h)
  | Except.ok a, Except.ok b =>
    if h : a = b then isTrue (by rw [h]) else isFalse (by intro he; cases he; exact h rfl)

/-- The oracle for one `RecvUnixFile` call: the outcome of the
`socket.ReadMsgUnix` syscall and the outcome of parsing the ancillary bytes it
filled in. -/
structure RecvMsgInput where
  readErr : Option GoError
  parsed : Except GoError (List ControlMessage)
  deriving DecidableEq

/-- All descriptors delivered by the receive, across every parsed block. -/
def receivedFds (inp : RecvMsgInput) : List Nat :=
  match inp.parsed with
  | Except.ok msg => (msg.map (fun m => m.fds)).flatten
  | Except.error _ => []

/-- Embedding of `RecvUnixFile` (fd.go).  Returns the Go result (`*os.File`
represented by its descriptor number, or the error) together with the list of
descriptors the function closed via `syscall.Close`, in order. -/
def RecvUnixFile (inp : RecvMsgInput) : Except GoError Nat × List Nat :=
  match inp.readErr with
  | some e => (Except.error e, [])
  | none =>
    match inp.parsed with
    | Except.error e => (Except.error (GoError.parseSCMFailed e), [])
    | Except.ok msg =>
      if msg.length ≠ 1 then
        (Except.error (GoError.invalidControlMessageCount msg.length), [])
      else
        let m := msg.headD { fds := [], rightsErr := none }
        match m.rightsErr with
        | some e => (Except.error (GoError.parseRightsFailed e), [])
        | none =>
          if m.fds.length ≠ 1 then
            (Except.error (GoError.tooManyFileDescriptors m.fds.length), m.fds)
          else
            (Except.ok (m.fds.headD 0), [])

/-- An `os.File` object: the OS descriptor it wraps and whether `Close` has
already run on it.  Go's `os.File.Close` closes the OS descriptor only on the
first call; a second call returns an error without touching the descriptor. -/
structure GoFile where
  fd : Nat
  closed : Bool
  deriving DecidableEq

/-- `os.File.Close`: returns the updated file object and the list of OS-level
`close` operations issued (empty when the file was already closed). -/
def fileClose (f : GoFile) : GoFile × List Nat :=
  if f.closed then (f, []) else ({ f with closed := true }, [f.fd])

/-- Embedding of `SendUnixFile` (fd.go), parameterised by the outcome of the
`socket.WriteMsgUnix` syscall.  Returns the Go error, the updated file object,
and the OS closes issued. -/
def SendUnixFile (writeErr : Option GoError) (f : GoFile) :
    Option GoError × GoFile × List Nat :=
  match writeErr with
  | some e => (some e, f, [])
  | none =>
    let (f2, cs) := fileClose f
    (none, f2, cs)

/-- Resource actions visible outside `SendUnixConn`: an OS-level close of a
file descriptor, or the `Close` of the original connection object. -/
inductive SendEvent where
  | closeFd (n : Nat)
  | closeConn
  deriving DecidableEq

/-- Embedding of `SendUnixConn` (fd.go), parameterised by the outcome of
`conn.(fileConn).File()` — on success a freshly duplicated descriptor — and of
the `WriteMsgUnix` syscall inside `SendUnixFile`.  Returns the Go error and
the ordered trace of resource actions.  The `defer f.Close()` registered right
after a successful `File()` runs on every subsequent return path. -/
def SendUnixConn (fileResult : Except GoError Nat) (writeErr : Option GoError) :
    Option GoError × List SendEvent :=
  match fileResult with
  | Except.error e => (some e, [])
  | Except.ok fd =>
    let f0 : GoFile := { fd := fd, closed := false }
    match SendUnixFile writeErr f0 with
    | (some e, f1, cs1) =>
      let (_, cs2) := fileClose f1
      (some e, cs1.map SendEvent.closeFd ++ cs2.map SendEvent.closeFd)
    | (none, f1, cs1) =>
      let (_, cs2) := fileClose f1
      (none, cs1.map SendEvent.closeFd ++ [SendEvent.closeConn] ++ cs2.map SendEvent.closeFd)

/-- What the configured `TunnelHandler.ServeTunnel` call does: return
normally, or panic with an error. -/
inductive HandlerOutcome where
  | normal
  | panicked (e : GoError)
  deriving DecidableEq

/-- Actions of `Tunnel.ServeProxy` visible to its collaborators. -/
inductive ProxyEvent where
  /-- the call `t.Handler.ServeTunnel(ctx, from, to)` -/
  | serveTunnelCall
  /-- the deferred `to.Close()` on the outbound connection -/
  | closeOutbound
  deriving DecidableEq

/-- How a `Tunnel.ServeProxy` invocation ends: normal return, or a panic
propagating out (the method "panics to report errors"). -/
inductive ProxyResult where
  | completed
  | panicked (e : GoError)
  deriving DecidableEq

/-- Embedding of `Tunnel.ServeProxy` (tunnel.go), parameterised by the dial
outcome and the handler's behaviour.  On dial failure the method panics before
`defer to.Close()` is registered and before the handler is reached.  On dial
success the deferred `to.Close()` runs when the handler returns *and* during
unwinding when the handler panics. -/
def ServeProxy (dialResult : Except GoError Unit) (h : HandlerOutcome) :
    ProxyResult × List ProxyEvent :=
  match dialResult with
  | Except.error e => (ProxyResult.panicked e, [])
  | Except.ok _ =>
    match h with
    | HandlerOutcome.normal =>
      (ProxyResult.completed, [ProxyEvent.serveTunnelCall, ProxyEvent.closeOutbound])
    | HandlerOutcome.panicked e =>
      (ProxyResult.panicked e, [ProxyEvent.serveTunnelCall, ProxyEvent.closeOutbound])

/-- The context value passed to a `readLine` call inside `tunnelLine`: either
the caller's cancellable `ctx`, or `context.Background()` (never cancelled). -/
inductive Ctx where
  | caller
  | background
  deriving DecidableEq

/-- The oracle for one iteration of the `tunnelLine` loop: the result of the
inbound `readLine`, of `to.Write`, of the reply `readLine`, and of
`from.Write`, in the order the code would perform them. -/
structure LineIter where
  inboundRead : Except GoError (List Nat)
  targetWriteErr : Option GoError
  targetRead : Except GoError (List Nat)
  inboundWriteErr : Option GoError
  deriving DecidableEq

/-- The externally visible operations of `tunnelLine`, in program order.  Read
operations record which context they were given. -/
inductive LineOp where
  /-- `readLine(ctx, from, r1)` -/
  | readInbound (c : Ctx)
  /-- `to.Write(line)` -/
  | writeTarget (line : List Nat)
  /-- `readLine(context.Background(), to, r2)` -/
  | readTarget (c : Ctx)
  /-- `from.Write(line)` -/
  | writeInbound (line : List Nat)
  /-- `from.Close()` performed by `fatal` -/
  | closeInbound
  deriving DecidableEq

/-- How a `tunnelLine` run over a finite oracle ends: the `return` on
end-of-stream / cancellation, the abrupt termination performed by `fatal`, or
`stillLooping` when the oracle ran out with the loop still going. -/
inductive LineOutcome where
  | normalReturn
  | fatalExit (e : GoError)
  | stillLooping
  deriving DecidableEq

/-- Modelled from the spec: the helper `fatal(conn, err)` of this repository
is not under src/; per the spec it "closes a connection and terminates the
current relay's execution path abruptly", signalling the error to the caller.
It is embedded below as: append a `closeInbound` op and end the run with
`LineOutcome.fatalExit err`. -/
def fatalTrace (pre : List LineOp) (e : GoError) : LineOutcome × List LineOp :=
  (LineOutcome.fatalExit e, pre ++ [LineOp.closeInbound])

/-- Embedding of `tunnelLine` (tunnel.go), driven by the oracle list: one
`LineIter` per loop iteration.  `readLine` itself (this repository's bounded
line reader, not under src/) is modelled from the spec as an oracle that
returns either a line or an error, the distinct `lineTooLong` error standing
for the maximum-length violation.  The `switch` on the inbound error compares
error values with Go `==`: only the exact `io.EOF` / `context.Canceled`
values select the `return` branch. -/
def tunnelLine : List LineIter → LineOutcome × List LineOp
  | [] => (LineOutcome.stillLooping, [])
  | it :: rest =>
    match it.inboundRead with
    | Except.error e =>
      if e = GoError.eof ∨ e = GoError.canceled then
        (LineOutcome.normalReturn, [LineOp.readInbound Ctx.caller])
      else
        fatalTrace [LineOp.readInbound Ctx.caller] e
    | Except.ok line =>
      match it.targetWriteErr with
      | some e => fatalTrace [LineOp.readInbound Ctx.caller, LineOp.writeTarget line] e
      | none =>
        match it.targetRead with
        | Except.error e =>
          fatalTrace [LineOp.readInbound Ctx.caller, LineOp.writeTarget line,
            LineOp.readTarget Ctx.background] e
        | Except.ok reply =>
          match it.inboundWriteErr with
          | some e =>
            fatalTrace [LineOp.readInbound Ctx.caller, LineOp.writeTarget line,
              LineOp.readTarget Ctx.background, LineOp.writeInbound reply] e
          | none =>
            let r := tunnelLine rest
            (r.1, LineOp.readInbound Ctx.caller :: LineOp.writeTarget line ::
              LineOp.readTarget Ctx.background :: LineOp.writeInbound reply :: r.2)

/-- An iteration whose four operations all succeed, letting the loop continue. -/
def iterOk (it : LineIter) : Bool :=
  (match it.inboundRead with | Except.ok _ => true | _ => false) &&
  it.targetWriteErr.isNone &&
  (match it.targetRead with | Except.ok _ => true | _ => false) &&
  it.inboundWriteErr.isNone

/-- Whether an op forwards a line to the target connection. -/
def isWriteTarget : LineOp → Bool
  | LineOp.writeTarget _ => true
  | _ => false

/-- The context a `readLine` op was given, `none` for non-read ops. -/
def opCtx : LineOp → Option Ctx
  | LineOp.readInbound c => some c
  | LineOp.readTarget c => some c
  | _ => none

/-- State of one of the two copy goroutines spawned by `tunnelRaw`: still
inside `Copy`, or returned from it (its deferred `cancel()` included). -/
inductive TaskState where
  | running
  | finished
  deriving DecidableEq

/-- Program counter of the `tunnelRaw` main flow:
`<-ctx.Done()` pending → received → `from.Close()` done → returned. -/
inductive MainState where
  | waiting
  | woke
  | closedInbound
  | returned
  deriving DecidableEq

/-- Global state of one `tunnelRaw` invocation: the two copy goroutines, the
main flow, whether the parent context has been cancelled externally, the child
cancellation signal (`ctx.Done()` closed), and whether `from.Close()` has been
issued. -/
structure RawState where
  g1 : TaskState
  g2 : TaskState
  main : MainState
  parentCancelled : Bool
  done : Bool
  fromClosed : Bool
  deriving DecidableEq

/-- `tunnelRaw` entry: both copies running, main blocked on `<-ctx.Done()`,
signal untriggered, inbound open. -/
def RawState.init : RawState :=
  { g1 := TaskState.running, g2 := TaskState.running, main := MainState.waiting,
    parentCancelled := false, done := false, fromClosed := false }

/-- Interleaving semantics of `tunnelRaw` (tunnel.go).  Each copy goroutine's
`Copy` may return at any time (end-of-stream, error, or unblocked by a close);
its deferred `cancel()` then triggers the signal.  The parent context may be
cancelled externally at any time, which `context.WithCancel` propagates to the
child signal.  The main flow receives from `ctx.Done()` only once the signal
is triggered, then closes the inbound connection, then returns.  Nothing ever
resets `done`. -/
inductive RawStep : RawState → RawState → Prop where
  /-- goroutine `copy(to, from)` returns from `Copy`; `defer cancel()` fires -/
  | finish1 (s : RawState) (h : s.g1 = TaskState.running) :
      RawStep s { s with g1 := TaskState.finished, done := true }
  /-- goroutine `copy(from, to)` returns from `Copy`; `defer cancel()` fires -/
  | finish2 (s : RawState) (h : s.g2 = TaskState.running) :
      RawStep s { s with g2 := TaskState.finished, done := true }
  /-- the caller cancels the parent context; the child signal triggers -/
  | parentCancel (s : RawState) (h : s.parentCancelled = false) :
      RawStep s { s with parentCancelled := true, done := true }
  /-- `<-ctx.Done()` completes — only possible once the signal is triggered -/
  | wake (s : RawState) (h1 : s.main = MainState.waiting) (h2 : s.done = true) :
      RawStep s { s with main := MainState.woke }
  /-- `from.Close()` -/
  | closeFrom (s : RawState) (h : s.main = MainState.woke) :
      RawStep s { s with main := MainState.closedInbound, fromClosed := true }
  /-- `tunnelRaw` returns -/
  | ret (s : RawState) (h : s.main = MainState.closedInbound) :
      RawStep s { s with main := MainState.returned }

/-- States reachable from `RawState.init` by interleaved steps. -/
inductive RawReachable : RawState → Prop where
  | init : RawReachable RawState.init
  | step {s t : RawState} : RawReachable s → RawStep s t → RawReachable t

/-- The inductive invariant of `tunnelRaw`:
the signal is triggered exactly by a finished copy goroutine or a parent
cancellation; the main flow has moved past `<-ctx.Done()` only when the signal
is triggered; `from.Close()` has been issued exactly when the main flow is at
or past it; a closed inbound connection implies a triggered signal. -/
def RawInv (s : RawState) : Prop :=
  (s.done = true ↔
    (s.g1 = TaskState.finished ∨ s.g2 = TaskState.finished ∨ s.parentCancelled = true)) ∧
  (s.main ≠ MainState.waiting → s.done = true) ∧
  ((s.main = MainState.closedInbound ∨ s.main = MainState.returned) ↔ s.fromClosed = true) ∧
  (s.fromClosed = true → s.done = true)

/-- A receive whose ancillary data parses into two control-message blocks,
carrying descriptors 5 and 6. -/
def twoBlockRecv : RecvMsgInput :=
  { readErr := none,
    parsed := Except.ok [{ fds := [5], rightsErr := none }, { fds := [6], rightsErr := none }] }

/-- A receive whose single control-message block embeds the two descriptors
3 and 4 (one more than the protocol allows). -/
def twoFdRecv : RecvMsgInput :=
  { readErr := none, parsed := Except.ok [{ fds := [3, 4], rightsErr := none }] }

/-- The `tunnelRaw` state after the run: first copy finished (triggering the
signal), main woke, closed the inbound connection, and returned. -/
def rawFinal : RawState :=
  { g1 := TaskState.finished, g2 := TaskState.running, main := MainState.returned,
    parentCancelled := false, done := true, fromClosed := true }

/-! ## Descriptor exchange: receive side -/

/-- C1 counterexample: on a receive parsed into two control-message blocks
(carrying descriptors 5 and 6), `RecvUnixFile` does return the protocol error
reporting the block count, but closes *no* descriptor: the descriptors
received in the extra blocks are not closed before the error is returned. -/
theorem C1_multiblock_leak_counterexample :
    (RecvUnixFile twoBlockRecv).1 =
      Except.error (GoError.invalidControlMessageCount 2) ∧
    receivedFds twoBlockRecv = [5, 6] ∧
    (RecvUnixFile twoBlockRecv).2 = [] ∧
    ¬ (∀ fd ∈ receivedFds twoBlockRecv, fd ∈ (RecvUnixFile twoBlockRecv).2) := by
  refine ⟨rfl, rfl, rfl, ?_⟩
  intro h
  exact absurd (h 5 (by decide)) (by decide)

/-- C1 (amended): whenever the ancillary data parses into a number of
control-message blocks different from one, `RecvUnixFile` returns the protocol
error reporting that block count and closes no descriptors on this path. -/
theorem C1_blockcount_protocol_error (inp : RecvMsgInput) (msg : List ControlMessage)
    (h1 : inp.readErr = none) (h2 : inp.parsed = Except.ok msg) (h3 : msg.length ≠ 1) :
    RecvUnixFile inp = (Except.error (GoError.invalidControlMessageCount msg.length), []) := by
  obtain ⟨re, pa⟩ := inp
  dsimp only at h1 h2
  subst h1; subst h2
  simp [RecvUnixFile, h3]

/-- C1 witness: the amended theorem applied to the two-block receive. -/
theorem C1_blockcount_protocol_error_witness :
    RecvUnixFile twoBlockRecv = (Except.error (GoError.invalidControlMessageCount 2), []) :=
  C1_blockcount_protocol_error twoBlockRecv _ rfl rfl (by decide)

/-- C2: when the single control-message block embeds a number of descriptors
different from one, `RecvUnixFile` closes exactly the descriptors it received
(all of them), returns no descriptor, and the error carries the actual
descriptor count. -/
theorem C2_fdcount_mismatch_closes_all (inp : RecvMsgInput) (m : ControlMessage)
    (h1 : inp.readErr = none) (h2 : inp.parsed = Except.ok [m])
    (h3 : m.rightsErr = none) (h4 : m.fds.length ≠ 1) :
    RecvUnixFile inp = (Except.error (GoError.tooManyFileDescriptors m.fds.length), m.fds) ∧
    receivedFds inp = m.fds := by
  obtain ⟨re, pa⟩ := inp
  dsimp only at h1 h2
  subst h1; subst h2
  constructor
  · simp [RecvUnixFile, h3, h4]
  · simp [receivedFds]

/-- C2 witness: the theorem applied to a single block embedding descriptors
3 and 4; both are closed and the error reports the count 2. -/
theorem C2_fdcount_mismatch_closes_all_witness :
    RecvUnixFile twoFdRecv = (Except.error (GoError.tooManyFileDescriptors 2), [3, 4]) ∧
    receivedFds twoFdRecv = [3, 4] :=
  C2_fdcount_mismatch_closes_all twoFdRecv _ rfl rfl rfl (by decide)

/-! ## Descriptor exchange: send side -/

/-- C3: on the successful `SendUnixConn` path (extraction yields descriptor
`fd`, the send succeeds) the extracted descriptor is closed at the OS level
exactly once — `SendUnixFile` closes it on success and the deferred
`f.Close()` then finds the file already closed — so the sender keeps no open
handle to the transmitted descriptor. -/
theorem C3_sender_closes_descriptor_once (fd : Nat) :
    (SendUnixConn (Except.ok fd) none).1 = none ∧
    (SendUnixConn (Except.ok fd) none).2.count (SendEvent.closeFd fd) = 1 := by
  constructor
  · rfl
  · simp [SendUnixConn, SendUnixFile, fileClose, List.count_cons]

/-- C9: `SendUnixConn` with a failed descriptor extraction returns that error
having performed no resource action at all — in particular the connection is
not closed; with extraction and send both succeeding it closes the duplicated
descriptor and then the original connection. -/
theorem C9_send_conn_error_paths (e : GoError) (w : Option GoError) (fd : Nat) :
    SendUnixConn (Except.error e) w = (some e, []) ∧
    SendUnixConn (Except.ok fd) none = (none, [SendEvent.closeFd fd, SendEvent.closeConn]) := by
  constructor
  · rfl
  · simp [SendUnixConn, SendUnixFile, fileClose]

/-! ## TunnelCore -/

/-- C4: when the dial fails, `ServeProxy` panics with the dial error — the
invocation is aborted — and `ServeTunnel` is never called. -/
theorem C4_dial_failure_skips_handler (e : GoError) (h : HandlerOutcome) :
    (ServeProxy (Except.error e) h).1 = ProxyResult.panicked e ∧
    ProxyEvent.serveTunnelCall ∉ (ServeProxy (Except.error e) h).2 := by
  cases h <;> simp [ServeProxy]

/-- C8: when the dial succeeds, `ServeProxy` invokes the handler and then
closes the outbound connection, both when the handler returns normally and
when it panics (the deferred `to.Close()` runs during unwinding). -/
theorem C8_outbound_closed_after_handler (h : HandlerOutcome) :
    (ServeProxy (Except.ok ()) h).2 =
      [ProxyEvent.serveTunnelCall, ProxyEvent.closeOutbound] := by
  cases h <;> rfl

/-! ## LineRelay -/

/-- A fully successful iteration prepends its four operations to the trace and
leaves the outcome to the rest of the loop. -/
theorem tunnelLine_ok_cons (it : LineIter) (rest : List LineIter)
    (hok : iterOk it = true) :
    ∃ line reply,
      tunnelLine (it :: rest) =
        ((tunnelLine rest).1,
         LineOp.readInbound Ctx.caller :: LineOp.writeTarget line ::
         LineOp.readTarget Ctx.background :: LineOp.writeInbound reply ::
         (tunnelLine rest).2) := by
  obtain ⟨ir, tw, tr, iw⟩ := it
  cases ir with
  | error e => simp [iterOk] at hok
  | ok line =>
    cases tw with
    | some e => simp [iterOk] at hok
    | none =>
      cases tr with
      | error e => simp [iterOk] at hok
      | ok reply =>
        cases iw with
        | some e => simp [iterOk] at hok
        | none => exact ⟨line, reply, rfl⟩

/-- Running the loop after a prefix of fully successful iterations: the
outcome is that of the remaining oracle, the prefix contributes exactly one
target-forward per iteration, and contributes no `closeInbound`. -/
theorem tunnelLine_append_ok (pre rest : List LineIter)
    (hok : ∀ it ∈ pre, iterOk it = true) :
    (tunnelLine (pre ++ rest)).1 = (tunnelLine rest).1 ∧
    ((tunnelLine (pre ++ rest)).2.filter isWriteTarget).length =
      pre.length + ((tunnelLine rest).2.filter isWriteTarget).length ∧
    (LineOp.closeInbound ∈ (tunnelLine (pre ++ rest)).2 ↔
      LineOp.closeInbound ∈ (tunnelLine rest).2) := by
  induction pre with
  | nil => simp
  | cons it pre ih =>
    have hit : iterOk it = true := hok it (List.mem_cons_self _ _)
    have hpre : ∀ j ∈ pre, iterOk j = true := fun j hj => hok j (List.mem_cons_of_mem _ hj)
    obtain ⟨h1, h2, h3⟩ := ih hpre
    obtain ⟨line, reply, heq⟩ := tunnelLine_ok_cons it (pre ++ rest) hit
    rw [List.cons_append, heq]
    refine ⟨h1, ?_, ?_⟩
    · simp [List.filter, isWriteTarget, h2]
      omega
    · simp [h3]

/-- C5: with any number of fully successful iterations behind it, an inbound
read returning exactly `io.EOF` or `context.Canceled` ends the loop normally
(no error, inbound left open by the relay), while any other inbound-read
error — `lineTooLong` included — is fatal: the outcome carries the error, the
inbound connection is closed, and the failing line is not forwarded (the
target-forward count stays at one per completed iteration). -/
theorem C5_inbound_error_dispatch (pre : List LineIter) (it : LineIter)
    (rest : List LineIter) (e : GoError)
    (hok : ∀ j ∈ pre, iterOk j = true) (he : it.inboundRead = Except.error e) :
    ((e = GoError.eof ∨ e = GoError.canceled) →
      (tunnelLine (pre ++ it :: rest)).1 = LineOutcome.normalReturn ∧
      LineOp.closeInbound ∉ (tunnelLine (pre ++ it :: rest)).2) ∧
    (¬(e = GoError.eof ∨ e = GoError.canceled) →
      (tunnelLine (pre ++ it :: rest)).1 = LineOutcome.fatalExit e ∧
      LineOp.closeInbound ∈ (tunnelLine (pre ++ it :: rest)).2 ∧
      ((tunnelLine (pre ++ it :: rest)).2.filter isWriteTarget).length = pre.length) := by
  obtain ⟨h1, h2, h3⟩ := tunnelLine_append_ok pre (it :: rest) hok
  obtain ⟨ir, tw, tr, iw⟩ := it
  dsimp only at he
  subst he
  constructor
  · intro hc
    rw [h1]
    constructor
    · simp [tunnelLine, hc]
    · rw [h3]
      simp [tunnelLine, hc]
  · intro hc
    refine ⟨?_, ?_, ?_⟩
    · rw [h1]
      simp [tunnelLine, fatalTrace, hc]
    · rw [h3]
      simp [tunnelLine, fatalTrace, hc]
    · rw [h2]
      simp [tunnelLine, fatalTrace, hc, List.filter, isWriteTarget]

/-- C5 witness: no successful prefix, inbound read failing with the
line-too-long error: the relay exits fatally, closes the inbound connection,
and forwards nothing. -/
theorem C5_inbound_error_dispatch_witness :
    (tunnelLine [⟨Except.error GoError.lineTooLong, none, Except.ok [], none⟩]).1 =
      LineOutcome.fatalExit GoError.lineTooLong ∧
    LineOp.closeInbound ∈
      (tunnelLine [⟨Except.error GoError.lineTooLong, none, Except.ok [], none⟩]).2 ∧
    ((tunnelLine [⟨Except.error GoError.lineTooLong, none, Except.ok [], none⟩]).2.filter
      isWriteTarget).length = 0 :=
  (C5_inbound_error_dispatch [] ⟨Except.error GoError.lineTooLong, none, Except.ok [], none⟩
    [] GoError.lineTooLong (by simp) rfl).2 (by decide)

/-- Every operation `tunnelLine` ever performs has one of five shapes; in
particular reads carry the context shown here. -/
theorem tunnelLine_op_shapes (its : List LineIter) :
    ∀ op ∈ (tunnelLine its).2,
      op = LineOp.readInbound Ctx.caller ∨ op = LineOp.readTarget Ctx.background ∨
      (∃ l, op = LineOp.writeTarget l) ∨ (∃ l, op = LineOp.writeInbound l) ∨
      op = LineOp.closeInbound := by
  induction its with
  | nil => simp [tunnelLine]
  | cons it rest ih =>
    intro op hop
    obtain ⟨ir, tw, tr, iw⟩ := it
    cases ir with
    | error e =>
      by_cases hc : e = GoError.eof ∨ e = GoError.canceled
      · simp [tunnelLine, hc] at hop
        subst hop; simp
      · simp [tunnelLine, fatalTrace, hc] at hop
        rcases hop with h | h <;> subst h <;> simp
    | ok line =>
      cases tw with
      | some e =>
        simp [tunnelLine, fatalTrace] at hop
        rcases hop with h | h | h <;> subst h <;> simp
      | none =>
        cases tr with
        | error e =>
          simp [tunnelLine, fatalTrace] at hop
          rcases hop with h | h | h | h <;> subst h <;> simp
        | ok reply =>
          cases iw with
          | some e =>
            simp [tunnelLine, fatalTrace] at hop
            rcases hop with h | h | h | h | h <;> subst h <;> simp
          | none =>
            simp [tunnelLine] at hop
            rcases hop with h | h | h | h | h
            · subst h; simp
            · subst h; simp
            · subst h; simp
            · subst h; simp
            · exact ih op h

/-- C6: every reply read from the target happens under the non-cancellable
background context, and the caller's cancellable context is given only to
inbound reads — the inbound read is the only cancellable suspension point of
the loop. -/
theorem C6_reply_read_not_cancellable (its : List LineIter) (op : LineOp)
    (hop : op ∈ (tunnelLine its).2) :
    (∀ c, op = LineOp.readTarget c → c = Ctx.background) ∧
    (opCtx op = some Ctx.caller → op = LineOp.readInbound Ctx.caller) := by
  rcases tunnelLine_op_shapes its op hop with h | h | ⟨l, h⟩ | ⟨l, h⟩ | h <;>
    subst h <;> constructor <;> simp [opCtx]

/-- C6 witness: in a run with one successful iteration, the reply read appears
in the trace; it targets the background context and is untouched by the
caller's context. -/
theorem C6_reply_read_not_cancellable_witness :
    LineOp.readTarget Ctx.background ∈
      (tunnelLine [⟨Except.ok [1], none, Except.ok [2], none⟩]).2 ∧
    (∀ c, LineOp.readTarget Ctx.background = LineOp.readTarget c → c = Ctx.background) ∧
    (opCtx (LineOp.readTarget Ctx.background) = some Ctx.caller →
      LineOp.readTarget Ctx.background = LineOp.readInbound Ctx.caller) :=
  ⟨by decide,
   (C6_reply_read_not_cancellable [⟨Except.ok [1], none, Except.ok [2], none⟩]
     (LineOp.readTarget Ctx.background) (by decide)).1,
   (C6_reply_read_not_cancellable [⟨Except.ok [1], none, Except.ok [2], none⟩]
     (LineOp.readTarget Ctx.background) (by decide)).2⟩

/-- C10: the normal-termination test of `tunnelLine` is Go `==` against the
exact values `io.EOF` and `context.Canceled`: any other inbound-read error —
`context.DeadlineExceeded` or a wrapped end-of-stream/cancellation among
them — takes the default branch, closing the inbound connection and exiting
fatally. -/
theorem C10_only_exact_eof_canceled_normal (it : LineIter) (rest : List LineIter)
    (e : GoError) (he : it.inboundRead = Except.error e)
    (h1 : e ≠ GoError.eof) (h2 : e ≠ GoError.canceled) :
    (tunnelLine (it :: rest)).1 = LineOutcome.fatalExit e ∧
    (tunnelLine (it :: rest)).2 = [LineOp.readInbound Ctx.caller, LineOp.closeInbound] := by
  obtain ⟨ir, tw, tr, iw⟩ := it
  dsimp only at he
  subst he
  have hc : ¬(e = GoError.eof ∨ e = GoError.canceled) := by tauto
  simp [tunnelLine, fatalTrace, hc]

/-- C10 witness: a deadline expiry and a wrapped `io.EOF` are both treated as
fatal, not as normal termination. -/
theorem C10_only_exact_eof_canceled_normal_witness :
    (tunnelLine [⟨Except.error GoError.deadlineExceeded, none, Except.ok [], none⟩]).1 =
      LineOutcome.fatalExit GoError.deadlineExceeded ∧
    (tunnelLine [⟨Except.error (GoError.wrapped GoError.eof), none, Except.ok [], none⟩]).2 =
      [LineOp.readInbound Ctx.caller, LineOp.closeInbound] :=
  ⟨(C10_only_exact_eof_canceled_normal ⟨Except.error GoError.deadlineExceeded, none,
      Except.ok [], none⟩ [] GoError.deadlineExceeded rfl (by decide) (by decide)).1,
   (C10_only_exact_eof_canceled_normal ⟨Except.error (GoError.wrapped GoError.eof), none,
      Except.ok [], none⟩ [] (GoError.wrapped GoError.eof) rfl (by decide) (by decide)).2⟩

/-! ## RawRelay -/

/-- `RawInv` holds in every reachable state of `tunnelRaw`. -/
theorem rawInv_of_reachable (s : RawState) (hs : RawReachable s) : RawInv s := by
  induction hs with
  | init => refine ⟨by simp [RawState.init], by simp [RawState.init],
      by simp [RawState.init], by simp [RawState.init]⟩
  | step hr hst ih =>
    obtain ⟨i1, i2, i3, i4⟩ := ih
    rename_i s t
    cases hst with
    | finish1 h => exact ⟨by simp, by simp, by simpa using i3, by simp⟩
    | finish2 h => exact ⟨by simp, by simp, by simpa using i3, by simp⟩
    | parentCancel h => exact ⟨by simp, by simp, by simpa using i3, by simp⟩
    | wake h1 h2 =>
      refine ⟨by simpa using i1, by simp [h2], ?_, by simpa using i4⟩
      have hnc : ¬ s.fromClosed = true := fun hfc => by
        rcases i3.mpr hfc with h | h <;> rw [h1] at h <;> cases h
      simp [hnc]
    | closeFrom h =>
      have hd : s.done = true := i2 (by rw [h]; intro hw; cases hw)
      exact ⟨by simpa using i1, by simp [hd], by simp, by simp [hd]⟩
    | ret h =>
      have hd : s.done = true := i2 (by rw [h]; intro hw; cases hw)
      have hfc : s.fromClosed = true := i3.mp (Or.inl h)
      exact ⟨by simpa using i1, by simp [hd], by simp [hfc], by simpa using i4⟩

/-- C7: in every reachable state of `tunnelRaw`, the cancellation signal is
triggered exactly when a copy direction has finished or the parent context was
cancelled; the inbound connection is closed only after the signal fired; the
call has returned only after the inbound close was issued; and every step
preserves a triggered signal (cancellation is monotonic). -/
theorem C7_raw_teardown_order (s : RawState) (hs : RawReachable s) :
    (s.done = true ↔
      (s.g1 = TaskState.finished ∨ s.g2 = TaskState.finished ∨ s.parentCancelled = true)) ∧
    (s.fromClosed = true → s.done = true) ∧
    (s.main = MainState.returned → s.fromClosed = true) ∧
    (∀ t, RawStep s t → s.done = true → t.done = true) := by
  obtain ⟨i1, i2, i3, i4⟩ := rawInv_of_reachable s hs
  refine ⟨i1, i4, fun h => i3.mp (Or.inr h), ?_⟩
  intro t hst hd
  cases hst <;> simp [hd]

/-- C7 witness: the completed run (first copy finished, main woke, closed the
inbound side, returned) is reachable, has the inbound connection closed, and
has the signal triggered. -/
theorem C7_raw_teardown_order_witness :
    rawFinal.fromClosed = true ∧ rawFinal.done = true := by
  have hreach : RawReachable rawFinal :=
    RawReachable.step
      (RawReachable.step
        (RawReachable.step
          (RawReachable.step RawReachable.init (RawStep.finish1 RawState.init rfl))
          (RawStep.wake _ rfl rfl))
        (RawStep.closeFrom _ rfl))
      (RawStep.ret _ rfl)
  have h := C7_raw_teardown_order rawFinal hreach
  exact ⟨h.2.2.1 rfl, h.2.1 (h.2.2.1 rfl)⟩

end Netx
